import Mathlib

/-!
# METAR viewer core: shallow embedding and verification

This file embeds the decoding/analytics core of `src/metarViewer/main.cpp`
(tokenizer, wind / visibility / ceiling / weather decoders, report decoder,
wind-component calculator, minima evaluator, trend analyzer) as Lean
definitions and proves properties of them.

Modelling conventions:
- C++ `std::string` tokens are `List Char`; `std::string::find` is `findSub`;
  `rfind(p, 0) == 0` (starts-with) is `startsWith`.
- C++ `double` arithmetic is modelled exactly: the decoders only add and
  divide small decimal values, modelled over `ℚ`; the trigonometric
  wind-component calculator is modelled over `ℝ` with the constant `kPi`
  taken to be `Real.pi`.
- `std::optional` is `Option`; an empty string field (station, timestamp,
  ceiling layer) models the C++ default-constructed empty string.
- `std::map` iteration (used by the weather decoder) visits keys in
  ascending order, so the weather table is written in that order.
-/

/-- One character of a token; digits as in C++ `isdigit`. -/
def isDigitChar (c : Char) : Bool := c.isDigit

/-- C++ `is_number`: nonempty and all characters are digits. -/
def is_number (s : List Char) : Bool := !s.isEmpty && s.all isDigitChar

/-- Numeric value of a digit string (C++ `stoi` / `stod` on an all-digit string). -/
def natOfDigits : List Char → Nat
  | [] => 0
  | c :: cs => natOfDigits cs + c.toNat.sub 48 * 10 ^ cs.length

/-- Model of C++ `s.rfind(pat, 0) == 0` (starts-with). -/
def startsWith : List Char → List Char → Bool
  | [], _ => true
  | _ :: _, [] => false
  | p :: ps, c :: cs => p == c && startsWith ps cs

/-- Model of C++ `s.find(pat)`: index of the first occurrence of `pat` as a
contiguous substring of `s`, `none` for `npos`. -/
def findSub (pat : List Char) : List Char → Option Nat
  | [] => if pat.isEmpty then some 0 else none
  | c :: cs => if startsWith pat (c :: cs) then some 0 else (findSub pat cs).map (· + 1)

/-- C++ `split_tokens` helper: accumulates the current word (reversed). -/
def splitTokensAux : List Char → List Char → List (List Char)
  | [], cur => if cur.isEmpty then [] else [cur.reverse]
  | c :: cs, cur =>
    if c.isWhitespace then
      if cur.isEmpty then splitTokensAux cs [] else cur.reverse :: splitTokensAux cs []
    else splitTokensAux cs (c :: cur)

/-- C++ `split_tokens`: split a raw line on whitespace runs. -/
def split_tokens (s : List Char) : List (List Char) := splitTokensAux s []

/-- C++ `WindInfo`: direction `nullopt` for VRB, speed in knots, optional gust. -/
structure WindInfo where
  direction_deg : Option Int := none
  speed_kt : Nat := 0
  gust_kt : Option Nat := none
deriving Repr, DecidableEq

instance : Inhabited WindInfo := ⟨{}⟩

/-- C++ `Minima` thresholds (doubles modelled as rationals). -/
structure Minima where
  min_ceiling_ft : ℚ := 1000
  min_visibility_sm : ℚ := 3
  max_crosswind_kt : ℚ := 15
deriving Repr, DecidableEq

/-- C++ `MetarDecoded`. Empty strings model the default-constructed fields. -/
structure MetarDecoded where
  station : List Char := []
  timestamp_z : List Char := []
  wind : WindInfo := {}
  visibility_sm : Option ℚ := none
  ceiling_ft : Option Nat := none
  ceiling_layer : List Char := []
  weather : List String := []
deriving Repr, DecidableEq

/-- C++ `WindComponents` (doubles modelled as reals). -/
structure WindComponents where
  headwind : ℝ
  crosswind : ℝ

/-- Decompose the middle of a wind token (between direction and `"KT"`) as
`<speed>` or `<speed>"G"<gust>`, speed and gust being 2–3 digit runs; this is
exactly the language of the regex fragment `(\d{2,3})(G(\d{2,3}))?`. -/
def windMiddle (mid : List Char) : Option (Nat × Option Nat) :=
  match findSub ['G'] mid with
  | none =>
    if is_number mid && (mid.length == 2 || mid.length == 3) then
      some (natOfDigits mid, none)
    else none
  | some i =>
    let spd := mid.take i
    let gst := mid.drop (i + 1)
    if is_number spd && (spd.length == 2 || spd.length == 3) &&
       (is_number gst && (gst.length == 2 || gst.length == 3)) then
      some (natOfDigits spd, some (natOfDigits gst))
    else none

/-- Full-token match of the C++ wind regex `(\d{3}|VRB)(\d{2,3})(G(\d{2,3}))?KT`
(`std::regex_match` anchors both ends). Returns the decoded `WindInfo`. -/
def windMatch (tok : List Char) : Option WindInfo :=
  let dirPart := tok.take 3
  let rest := tok.drop 3
  if dirPart.length == 3 && (is_number dirPart || dirPart == ['V', 'R', 'B']) &&
     rest.length ≥ 2 && rest.drop (rest.length - 2) == ['K', 'T'] then
    match windMiddle (rest.take (rest.length - 2)) with
    | some (spd, gst) =>
      some { direction_deg := if dirPart == ['V', 'R', 'B'] then none
                              else some (natOfDigits dirPart)
             speed_kt := spd, gust_kt := gst }
    | none => none
  else none

/-- C++ `parse_wind`: first token fully matching the wind regex; default
`WindInfo` when none matches. -/
def parse_wind : List (List Char) → WindInfo
  | [] => {}
  | tok :: rest =>
    match windMatch tok with
    | some w => w
    | none => parse_wind rest

/-- Shorthand: characters of a string literal. -/
def lc (s : String) : List Char := s.toList

/-- C++ `to_upper` (applied tokenwise in `decode_metar`). -/
def to_upper (s : List Char) : List Char := s.map Char.toUpper

/-- C++ `parse_fraction`: split at the first slash; both parts must be digit
strings and the denominator nonzero. -/
def parse_fraction (token : List Char) : Option ℚ :=
  match findSub ['/'] token with
  | none => none
  | some i =>
    let num := token.take i
    let den := token.drop (i + 1)
    if is_number num && is_number den then
      if natOfDigits den = 0 then none
      else some ((natOfDigits num : ℚ) / (natOfDigits den : ℚ))
    else none

/-- Value of the part of a visibility token before `"SM"`: a fraction, a plain
number, or 0 (empty or unparsable prefix contributes nothing). -/
def visValue (vp : List Char) : ℚ :=
  if vp.isEmpty then 0
  else match parse_fraction vp with
  | some f => f
  | none => if is_number vp then (natOfDigits vp : ℚ) else 0

/-- Total visibility read off an `"SM"` token given the preceding token: the
prefix value plus, when the preceding token is a standalone integer, that
integer (the C++ code adds it unconditionally, not only for fractions). -/
def smTotal (prev : Option (List Char)) (tok : List Char) : ℚ :=
  (match findSub ['S', 'M'] tok with
   | some i => visValue (tok.take i)
   | none => 0) +
  (match prev with
   | some p => if is_number p then (natOfDigits p : ℚ) else 0
   | none => 0)

/-- Loop of C++ `parse_visibility_sm`, carrying the previous token. -/
def parseVisAux : Option (List Char) → List (List Char) → Option ℚ
  | _, [] => none
  | prev, tok :: rest =>
    match findSub ['S', 'M'] tok with
    | none => parseVisAux (some tok) rest
    | some _ =>
      let total := smTotal prev tok
      if 0 < total then some total else parseVisAux (some tok) rest

/-- C++ `parse_visibility_sm`: first token containing `"SM"` whose computed
total is positive. -/
def parse_visibility_sm (tokens : List (List Char)) : Option ℚ :=
  parseVisAux none tokens

/-- Height (in feet) a single token contributes to the ceiling: prefix
`OVC`/`BKN`/`VV`, then the next up-to-3 characters must form a nonempty digit
string; its value times 100. -/
def ceilHeight (tok : List Char) : Option Nat :=
  if startsWith (lc "OVC") tok || startsWith (lc "BKN") tok ||
     startsWith (lc "VV") tok then
    let start := if startsWith (lc "VV") tok then 2 else 3
    let height_str := (tok.drop start).take 3
    if is_number height_str then some (natOfDigits height_str * 100) else none
  else none

/-- Loop of C++ `parse_ceiling_ft`: keep the lowest qualifying height, storing
the first three characters of the chosen token as the layer code. -/
def parseCeilAux : Option Nat × List Char → List (List Char) → Option Nat × List Char
  | st, [] => st
  | (cur, layer), tok :: rest =>
    match ceilHeight tok with
    | none => parseCeilAux (cur, layer) rest
    | some h =>
      match cur with
      | none => parseCeilAux (some h, tok.take 3) rest
      | some c =>
        if h < c then parseCeilAux (some h, tok.take 3) rest
        else parseCeilAux (some c, layer) rest

/-- C++ `parse_ceiling_ft` together with its `layer_out` output parameter. -/
def parse_ceiling (tokens : List (List Char)) : Option Nat × List Char :=
  parseCeilAux (none, []) tokens

/-- C++ `wx_map`: a `std::map`, iterated in ascending key order. -/
def wx_map : List (String × String) :=
  [("BR", "mist"), ("DZ", "drizzle"), ("FG", "fog"), ("FU", "smoke"),
   ("HZ", "haze"), ("PL", "ice pellets"), ("RA", "rain"), ("SG", "snow grains"),
   ("SH", "showers"), ("SN", "snow"), ("TS", "thunderstorm")]

/-- Inner step of C++ `parse_weather`: when the code occurs anywhere in the
token and its description was not yet collected, append the description. -/
def wxStep (tok : List Char) (found : List String) (entry : String × String) : List String :=
  if (findSub (lc entry.1) tok).isSome then
    if entry.2 ∈ found then found else found ++ [entry.2]
  else found

/-- C++ `parse_weather`: scan every token against every table entry. -/
def parse_weather (tokens : List (List Char)) : List String :=
  tokens.foldl (fun found tok => wx_map.foldl (wxStep tok) found) []

/-- C++ `decode_metar`: uppercase the tokens, read station and timestamp, and
run every field decoder over the full token list. -/
def decode_metar (raw : List Char) : MetarDecoded :=
  let tokens := (split_tokens raw).map to_upper
  { station := match tokens with | [] => [] | t :: _ => t
    timestamp_z := match tokens with
      | _ :: t1 :: _ => if t1.length ≥ 5 && t1.getLast? == some 'Z' then t1 else []
      | _ => []
    wind := parse_wind tokens
    visibility_sm := parse_visibility_sm tokens
    ceiling_ft := (parse_ceiling tokens).1
    ceiling_layer := (parse_ceiling tokens).2
    weather := parse_weather tokens }

/-- The normalized angle of C++ `compute_wind_components`:
`|dir - heading| * pi / 180`, reflected at `pi`. -/
noncomputable def normAngle (d rwy : Int) : ℝ :=
  let a : ℝ := (|d - rwy| : ℤ) * Real.pi / 180
  if a > Real.pi then 2 * Real.pi - a else a

/-- C++ `compute_wind_components`. -/
noncomputable def compute_wind_components (wind : WindInfo) (rwy : Int) : Option WindComponents :=
  match wind.direction_deg with
  | none => none
  | some d =>
    if rwy = 0 then none
    else some { headwind := Real.cos (normAngle d rwy) * wind.speed_kt
                crosswind := Real.sin (normAngle d rwy) * wind.speed_kt }

/-- The alert set emitted by C++ `print_metar_json` (lines 441–458), as the
ordered list of alert keys ("<field> <message>"). -/
noncomputable def alerts (m : MetarDecoded) (minima : Minima) (rwy : Int) : List String :=
  (match m.visibility_sm with
   | some v => if v < minima.min_visibility_sm then ["visibility below minima"] else []
   | none => []) ++
  (match m.ceiling_ft with
   | some c => if (c : ℚ) < minima.min_ceiling_ft then ["ceiling below minima"] else []
   | none => []) ++
  (match compute_wind_components m.wind rwy with
   | some comps =>
     if (minima.max_crosswind_kt : ℝ) < |comps.crosswind| then ["crosswind exceeds minima"] else []
   | none => [])

/-- C++ `trend_word`: classify a delta against the 0.05 tolerance. -/
def trend_word (delta : ℚ) : String :=
  if delta > 1/20 then "improving"
  else if delta < -(1/20) then "worsening"
  else "steady"

/-- Per-field trend between the oldest and newest report, as printed by
`print_trend_text` / `print_trend_json`: visibility and ceiling carry a
classification word, wind direction only the raw endpoints. -/
structure TrendResult where
  visibility : Option (ℚ × ℚ × String) := none
  ceiling : Option (Nat × Nat × String) := none
  wind_dir : Option (Int × Int) := none
deriving Repr, DecidableEq

/-- Build the trend fields from the first and last decoded report. -/
def mkTrend (first last : MetarDecoded) : TrendResult :=
  { visibility :=
      match first.visibility_sm, last.visibility_sm with
      | some a, some b => some (a, b, trend_word (b - a))
      | _, _ => none
    ceiling :=
      match first.ceiling_ft, last.ceiling_ft with
      | some a, some b => some (a, b, trend_word ((b : ℚ) - (a : ℚ)))
      | _, _ => none
    wind_dir :=
      match first.wind.direction_deg, last.wind.direction_deg with
      | some a, some b => some (a, b)
      | _, _ => none }

/-- C++ trend reporting: nothing for fewer than two reports, else the trend
between the front and back of the sequence. -/
def trend : List MetarDecoded → Option TrendResult
  | [] => none
  | [_] => none
  | m :: rest => some (mkTrend m (rest.getLastD m))

/-- The descriptions matched by one token, in table-scan order (specification
device for the weather decoder). -/
def wxTokenMatches (tok : List Char) : List String :=
  wx_map.filterMap fun e => if (findSub (lc e.1) tok).isSome then some e.2 else none

/-- All matched descriptions over a token list, in scan order. -/
def wxMatches : List (List Char) → List String
  | [] => []
  | t :: ts => wxTokenMatches t ++ wxMatches ts

/-- Deduplication keeping the first occurrence (specification device). -/
def dedupFirst (seen : List String) : List String → List String
  | [] => seen
  | x :: xs => if x ∈ seen then dedupFirst seen xs else dedupFirst (seen ++ [x]) xs

/-! ## Theorems -/

theorem parse_wind_append_skip (pre rest : List (List Char))
    (h : ∀ u ∈ pre, windMatch u = none) :
    parse_wind (pre ++ rest) = parse_wind rest := by
  induction pre with
  | nil => rfl
  | cons t ts ih =>
    have ht : windMatch t = none := h t (by simp)
    simp only [List.cons_append, parse_wind, ht]
    exact ih fun u hu => h u (by simp [hu])

/-- C1: the wind decoder uses only the first token fully matching
`(\d{3}|VRB)(\d{2,3})(G(\d{2,3}))?KT`; "24012G18KT" gives 240/12/G18,
"VRB05KT" gives direction absent and speed 5, and a token list with no
matching token gives the default `WindInfo`. -/
theorem C1_wind_decoder :
    parse_wind [lc "24012G18KT"] =
      { direction_deg := some 240, speed_kt := 12, gust_kt := some 18 } ∧
    parse_wind [lc "VRB05KT"] =
      { direction_deg := none, speed_kt := 5, gust_kt := none } ∧
    (∀ pre tok post w, (∀ u ∈ pre, windMatch u = none) → windMatch tok = some w →
      parse_wind (pre ++ tok :: post) = w) ∧
    (∀ tokens, (∀ u ∈ tokens, windMatch u = none) → parse_wind tokens = {}) := by
  refine ⟨by decide, by decide, ?_, ?_⟩
  · intro pre tok post w hpre htok
    rw [parse_wind_append_skip pre _ hpre]
    simp [parse_wind, htok]
  · intro tokens h
    have := parse_wind_append_skip tokens [] h
    simpa using this

/-- C1 witness: the decoder skips a non-matching token and decodes "VRB05KT". -/
theorem C1_wind_decoder_witness :
    parse_wind [lc "ABC", lc "VRB05KT"] =
      { direction_deg := none, speed_kt := 5, gust_kt := none } :=
  C1_wind_decoder.2.2.1 [lc "ABC"] (lc "VRB05KT") []
    { direction_deg := none, speed_kt := 5, gust_kt := none }
    (by decide) (by decide)

theorem parseVisAux_first (tok : List Char) (post : List (List Char))
    (i : Nat) (hi : findSub ['S', 'M'] tok = some i) :
    ∀ (pre : List (List Char)) (prev : Option (List Char)),
    (∀ u ∈ pre, findSub ['S', 'M'] u = none) →
    0 < smTotal (pre.getLast?.or prev) tok →
    parseVisAux prev (pre ++ tok :: post) = some (smTotal (pre.getLast?.or prev) tok) := by
  intro pre
  induction pre with
  | nil =>
    intro prev _ hpos
    simp only [List.getLast?_nil, Option.none_or] at hpos ⊢
    simp [parseVisAux, hi, hpos]
  | cons u us ih =>
    intro prev hskip hpos
    have hu : findSub ['S', 'M'] u = none := hskip u (by simp)
    have hlast : (u :: us).getLast?.or prev = us.getLast?.or (some u) := by
      cases us with
      | nil => simp
      | cons v vs =>
        rw [List.getLast?_cons_cons]
        have hs : ((v :: vs).getLast?).isSome := by
          rw [List.getLast?_isSome]
          simp
        obtain ⟨x, hx⟩ := Option.isSome_iff_exists.mp hs
        rw [hx]
        rfl
    rw [hlast] at hpos ⊢
    simp only [List.cons_append, parseVisAux, hu]
    exact ih (some u) (fun x hx => hskip x (by simp [hx])) hpos

/-- C2 counterexample: the code adds the preceding standalone-integer token
even when the `"SM"` prefix is a plain number, not a fraction: the tokens
"5 10SM" decode to 15, not 10. -/
theorem C2_counterexample :
    parse_visibility_sm [lc "5", lc "10SM"] = some 15 ∧ (15 : ℚ) ≠ 10 := by
  constructor
  · simp [parse_visibility_sm, parseVisAux, findSub, startsWith, smTotal, visValue,
          parse_fraction, is_number, isDigitChar, natOfDigits, lc]
    norm_num
  · norm_num

/-- C2 (amended): for the first token containing "SM" (with positive computed
total), the result is the prefix value plus the immediately preceding
standalone-integer token whenever one exists, regardless of the form of the
prefix; "1/2SM" gives 1/2, "1 1/2SM" gives 3/2, "10SM" gives 10. -/
theorem C2_visibility_decoder :
    parse_visibility_sm [lc "1/2SM"] = some (1/2) ∧
    parse_visibility_sm [lc "1", lc "1/2SM"] = some (3/2) ∧
    parse_visibility_sm [lc "10SM"] = some 10 ∧
    (∀ pre tok post i, (∀ u ∈ pre, findSub ['S', 'M'] u = none) →
      findSub ['S', 'M'] tok = some i →
      0 < smTotal pre.getLast? tok →
      parse_visibility_sm (pre ++ tok :: post) = some (smTotal pre.getLast? tok)) := by
  refine ⟨?_, ?_, ?_, ?_⟩
  · simp [parse_visibility_sm, parseVisAux, findSub, startsWith, smTotal, visValue,
          parse_fraction, is_number, isDigitChar, natOfDigits, lc]
  · simp [parse_visibility_sm, parseVisAux, findSub, startsWith, smTotal, visValue,
          parse_fraction, is_number, isDigitChar, natOfDigits, lc]
    norm_num
  · simp [parse_visibility_sm, parseVisAux, findSub, startsWith, smTotal, visValue,
          parse_fraction, is_number, isDigitChar, natOfDigits, lc]
  · intro pre tok post i hskip hi hpos
    have h := parseVisAux_first tok post i hi pre none hskip (by simpa using hpos)
    simpa [parse_visibility_sm] using h

/-- C2 witness: the general first-match rule applied to "1 1/2SM". -/
theorem C2_visibility_decoder_witness :
    parse_visibility_sm [lc "1", lc "1/2SM"] =
      some (smTotal (some (lc "1")) (lc "1/2SM")) :=
  C2_visibility_decoder.2.2.2 [lc "1"] (lc "1/2SM") [] 3
    (by simp [findSub, startsWith, lc])
    (by simp [findSub, startsWith, lc])
    (by simp [smTotal, findSub, startsWith, visValue, parse_fraction, is_number,
              isDigitChar, natOfDigits, lc]
        norm_num)

theorem parseCeilAux_fst_none :
    ∀ (tokens : List (List Char)) (cur : Option Nat) (layer : List Char),
    ((parseCeilAux (cur, layer) tokens).1 = none ↔
      (cur = none ∧ ∀ t ∈ tokens, ceilHeight t = none)) := by
  intro tokens
  induction tokens with
  | nil => intro cur layer; simp [parseCeilAux]
  | cons t ts ih =>
    intro cur layer
    cases hct : ceilHeight t with
    | none =>
      simp only [parseCeilAux, hct]
      rw [ih]
      constructor
      · rintro ⟨hc, hall⟩
        exact ⟨hc, by
          intro u hu
          rcases List.mem_cons.mp hu with h | h
          · exact h ▸ hct
          · exact hall u h⟩
      · rintro ⟨hc, hall⟩
        exact ⟨hc, fun u hu => hall u (List.mem_cons_of_mem _ hu)⟩
    | some ht =>
      cases cur with
      | none =>
        simp only [parseCeilAux, hct]
        rw [ih]
        simp [hct]
      | some c =>
        simp only [parseCeilAux, hct]
        by_cases hlt : ht < c
        · rw [if_pos hlt, ih]; simp [hct]
        · rw [if_neg hlt, ih]; simp [hct]

theorem parseCeilAux_fst_some :
    ∀ (tokens : List (List Char)) (cur : Option Nat) (layer : List Char) (h : Nat),
    (parseCeilAux (cur, layer) tokens).1 = some h →
      ((cur = some h ∧ (parseCeilAux (cur, layer) tokens).2 = layer) ∨
        ∃ t ∈ tokens, ceilHeight t = some h ∧ (parseCeilAux (cur, layer) tokens).2 = t.take 3) ∧
      (∀ c, cur = some c → h ≤ c) ∧
      (∀ t ∈ tokens, ∀ h0, ceilHeight t = some h0 → h ≤ h0) := by
  intro tokens
  induction tokens with
  | nil =>
    intro cur layer h hres
    simp only [parseCeilAux] at hres
    refine ⟨Or.inl ⟨hres, rfl⟩, ?_, by simp⟩
    intro c hc
    rw [hc] at hres
    injection hres with e
    omega
  | cons t ts ih =>
    intro cur layer h hres
    cases hct : ceilHeight t with
    | none =>
      simp only [parseCeilAux, hct] at hres ⊢
      obtain ⟨hsrc, hcur, hall⟩ := ih cur layer h hres
      refine ⟨?_, hcur, ?_⟩
      · rcases hsrc with hl | ⟨u, hu, h1, h2⟩
        · exact Or.inl hl
        · exact Or.inr ⟨u, List.mem_cons_of_mem _ hu, h1, h2⟩
      · intro u hu h0 hh0
        rcases List.mem_cons.mp hu with he | hm
        · rw [he, hct] at hh0; exact absurd hh0 (by simp)
        · exact hall u hm h0 hh0
    | some ht =>
      cases cur with
      | none =>
        simp only [parseCeilAux, hct] at hres ⊢
        obtain ⟨hsrc, hcur, hall⟩ := ih (some ht) (t.take 3) h hres
        have hle : h ≤ ht := hcur ht rfl
        refine ⟨?_, by simp, ?_⟩
        · rcases hsrc with ⟨h1, h2⟩ | ⟨u, hu, h1, h2⟩
          · exact Or.inr ⟨t, by simp, by rw [hct, h1], h2⟩
          · exact Or.inr ⟨u, List.mem_cons_of_mem _ hu, h1, h2⟩
        · intro u hu h0 hh0
          rcases List.mem_cons.mp hu with he | hm
          · rw [he, hct] at hh0
            injection hh0 with e
            omega
          · exact hall u hm h0 hh0
      | some c =>
        simp only [parseCeilAux, hct] at hres ⊢
        by_cases hlt : ht < c
        · rw [if_pos hlt] at hres ⊢
          obtain ⟨hsrc, hcur, hall⟩ := ih (some ht) (t.take 3) h hres
          have hle : h ≤ ht := hcur ht rfl
          refine ⟨?_, ?_, ?_⟩
          · rcases hsrc with ⟨h1, h2⟩ | ⟨u, hu, h1, h2⟩
            · exact Or.inr ⟨t, by simp, by rw [hct, h1], h2⟩
            · exact Or.inr ⟨u, List.mem_cons_of_mem _ hu, h1, h2⟩
          · intro c' hc'
            injection hc' with e
            omega
          · intro u hu h0 hh0
            rcases List.mem_cons.mp hu with he | hm
            · rw [he, hct] at hh0
              injection hh0 with e
              omega
            · exact hall u hm h0 hh0
        · rw [if_neg hlt] at hres ⊢
          obtain ⟨hsrc, hcur, hall⟩ := ih (some c) layer h hres
          have hle : h ≤ c := hcur c rfl
          refine ⟨?_, ?_, ?_⟩
          · rcases hsrc with hl | ⟨u, hu, h1, h2⟩
            · exact Or.inl hl
            · exact Or.inr ⟨u, List.mem_cons_of_mem _ hu, h1, h2⟩
          · intro c' hc'
            injection hc' with e
            omega
          · intro u hu h0 hh0
            rcases List.mem_cons.mp hu with he | hm
            · rw [he, hct] at hh0
              injection hh0 with e
              omega
            · exact hall u hm h0 hh0

/-- C3 counterexample: "OVC08" is not `OVC` followed by exactly 3 digits (the
token has length 5), yet the decoder accepts it and reads 800 ft. -/
theorem C3_counterexample :
    parse_ceiling [lc "OVC08"] = (some 800, lc "OVC") ∧ (lc "OVC08").length = 5 := by
  decide

/-- C3 (amended): a token qualifies when its `OVC`/`BKN`/`VV` prefix is
followed by a nonempty run of at most 3 characters that are all digits
(trailing characters beyond them are ignored); height is that number times
100; among qualifying tokens the lowest height is returned, and no qualifying
token yields no ceiling. "OVC008 BKN015" gives 800 ft, layer "OVC". -/
theorem C3_ceiling_decoder :
    parse_ceiling [lc "OVC008", lc "BKN015"] = (some 800, lc "OVC") ∧
    (∀ tokens, ((parse_ceiling tokens).1 = none ↔ ∀ t ∈ tokens, ceilHeight t = none)) ∧
    (∀ tokens h, (parse_ceiling tokens).1 = some h →
      (∃ t ∈ tokens, ceilHeight t = some h ∧ (parse_ceiling tokens).2 = t.take 3) ∧
      (∀ t ∈ tokens, ∀ h0, ceilHeight t = some h0 → h ≤ h0)) := by
  refine ⟨by decide, ?_, ?_⟩
  · intro tokens
    rw [parse_ceiling, parseCeilAux_fst_none]
    simp
  · intro tokens h hres
    obtain ⟨hsrc, _, hall⟩ := parseCeilAux_fst_some tokens none [] h hres
    refine ⟨?_, hall⟩
    rcases hsrc with ⟨h1, _⟩ | hr
    · exact absurd h1 (by simp)
    · exact hr

/-- C3 witness: the lowest-layer rule applied to "OVC008 BKN015". -/
theorem C3_ceiling_decoder_witness :
    (∃ t ∈ [lc "OVC008", lc "BKN015"], ceilHeight t = some 800 ∧
      (parse_ceiling [lc "OVC008", lc "BKN015"]).2 = t.take 3) ∧
    (∀ t ∈ [lc "OVC008", lc "BKN015"], ∀ h0, ceilHeight t = some h0 → 800 ≤ h0) :=
  C3_ceiling_decoder.2.2 [lc "OVC008", lc "BKN015"] 800 (by decide)

/-- C8: evaluation at the failing input. For the report "KJFK 121853Z VV003"
the decoded ceiling is present (300 ft, a multiple of 100) but the stored
layer code is "VV0" — the first three characters of the token — which is none
of "OVC", "BKN", "VV". -/
theorem C8_layer_eval :
    (decode_metar (lc "KJFK 121853Z VV003")).ceiling_ft = some 300 ∧
    (decode_metar (lc "KJFK 121853Z VV003")).ceiling_layer = lc "VV0" ∧
    lc "VV0" ∉ [lc "OVC", lc "BKN", lc "VV"] := by
  refine ⟨?_, ?_, by decide⟩
  · have h : (split_tokens (lc "KJFK 121853Z VV003")).map to_upper =
        [lc "KJFK", lc "121853Z", lc "VV003"] := by decide
    show (parse_ceiling ((split_tokens (lc "KJFK 121853Z VV003")).map to_upper)).1 = some 300
    rw [h]; decide
  · have h : (split_tokens (lc "KJFK 121853Z VV003")).map to_upper =
        [lc "KJFK", lc "121853Z", lc "VV003"] := by decide
    show (parse_ceiling ((split_tokens (lc "KJFK 121853Z VV003")).map to_upper)).2 = lc "VV0"
    rw [h]; decide

/-- C7 counterexample: the field decoders are applied to the full token list,
not only to the tokens after station and timestamp: decoding the single token
"10SM" makes it the station, yet visibility is decoded from it as well, while
running the visibility decoder on the empty remainder would give none. -/
theorem C7_counterexample :
    (decode_metar (lc "10SM")).station = lc "10SM" ∧
    (decode_metar (lc "10SM")).visibility_sm = some 10 ∧
    parse_visibility_sm [] = none := by
  refine ⟨by decide, ?_, by decide⟩
  have h : (split_tokens (lc "10SM")).map to_upper = [lc "10SM"] := by decide
  show parse_visibility_sm ((split_tokens (lc "10SM")).map to_upper) = some 10
  rw [h]
  simp [parse_visibility_sm, parseVisAux, findSub, startsWith, smTotal, visValue,
        parse_fraction, is_number, isDigitChar, natOfDigits, lc]

/-- C7 (amended): decoding never fails; the station is the first uppercased
token (empty string when there is none), the timestamp is the second token iff
it has length ≥ 5 and ends in 'Z', the four field decoders are composed over
the FULL uppercased token list (station and timestamp included), and the empty
string decodes to a report with every field absent. -/
theorem C7_report_decoder :
    decode_metar (lc "") = {} ∧
    (∀ raw, (decode_metar raw).station = ((split_tokens raw).map to_upper).headD []) ∧
    (∀ raw t0 t1 ts, (split_tokens raw).map to_upper = t0 :: t1 :: ts →
      (decode_metar raw).timestamp_z =
        if t1.length ≥ 5 ∧ t1.getLast? = some 'Z' then t1 else []) ∧
    (∀ raw, ((split_tokens raw).map to_upper).length ≤ 1 →
      (decode_metar raw).timestamp_z = []) ∧
    (∀ raw,
      (decode_metar raw).wind = parse_wind ((split_tokens raw).map to_upper) ∧
      (decode_metar raw).visibility_sm = parse_visibility_sm ((split_tokens raw).map to_upper) ∧
      (decode_metar raw).ceiling_ft = (parse_ceiling ((split_tokens raw).map to_upper)).1 ∧
      (decode_metar raw).ceiling_layer = (parse_ceiling ((split_tokens raw).map to_upper)).2 ∧
      (decode_metar raw).weather = parse_weather ((split_tokens raw).map to_upper)) := by
  refine ⟨by decide, ?_, ?_, ?_, ?_⟩
  · intro raw
    show (match (split_tokens raw).map to_upper with | [] => ([] : List Char) | t :: _ => t) = _
    cases h : (split_tokens raw).map to_upper <;> simp
  · intro raw t0 t1 ts h
    show (match (split_tokens raw).map to_upper with
      | _ :: t1 :: _ => if t1.length ≥ 5 && t1.getLast? == some 'Z' then t1 else []
      | _ => ([] : List Char)) = _
    rw [h]
    by_cases h5 : t1.length ≥ 5 <;> by_cases hz : t1.getLast? = some 'Z' <;>
      simp [h5, hz]
  · intro raw hlen
    show (match (split_tokens raw).map to_upper with
      | _ :: t1 :: _ => if t1.length ≥ 5 && t1.getLast? == some 'Z' then t1 else []
      | _ => ([] : List Char)) = _
    cases h : (split_tokens raw).map to_upper with
    | nil => rfl
    | cons a l =>
      cases l with
      | nil => rfl
      | cons b l2 => rw [h] at hlen; simp at hlen
  · intro raw
    exact ⟨rfl, rfl, rfl, rfl, rfl⟩

/-- C7 witness: the timestamp rule applied to "KJFK 121853Z". -/
theorem C7_report_decoder_witness :
    (decode_metar (lc "KJFK 121853Z")).timestamp_z =
      if (lc "121853Z").length ≥ 5 ∧ (lc "121853Z").getLast? = some 'Z'
      then lc "121853Z" else [] :=
  C7_report_decoder.2.2.1 (lc "KJFK 121853Z") (lc "KJFK") (lc "121853Z") [] (by decide)

theorem foldl_wxStep_eq (tok : List Char) :
    ∀ (es : List (String × String)) (found : List String),
    es.foldl (wxStep tok) found =
      dedupFirst found (es.filterMap fun e =>
        if (findSub (lc e.1) tok).isSome then some e.2 else none) := by
  intro es
  induction es with
  | nil => intro found; rfl
  | cons e es ih =>
    intro found
    by_cases hm : (findSub (lc e.1) tok).isSome
    · by_cases hf : e.2 ∈ found
      · simp [List.foldl_cons, List.filterMap_cons, wxStep, hm, hf, ih, dedupFirst]
      · simp [List.foldl_cons, List.filterMap_cons, wxStep, hm, hf, ih, dedupFirst]
    · simp [List.foldl_cons, List.filterMap_cons, wxStep, hm, ih]

theorem dedupFirst_append (l1 l2 : List String) :
    ∀ seen, dedupFirst seen (l1 ++ l2) = dedupFirst (dedupFirst seen l1) l2 := by
  induction l1 with
  | nil => intro seen; rfl
  | cons x xs ih =>
    intro seen
    by_cases hx : x ∈ seen <;> simp [dedupFirst, hx, ih]

theorem parse_weather_foldl (tokens : List (List Char)) :
    ∀ found, tokens.foldl (fun found tok => wx_map.foldl (wxStep tok) found) found =
      dedupFirst found (wxMatches tokens) := by
  induction tokens with
  | nil => intro found; rfl
  | cons t ts ih =>
    intro found
    rw [List.foldl_cons, ih, foldl_wxStep_eq, wxMatches, dedupFirst_append]
    rfl

theorem dedupFirst_nodup : ∀ (l seen : List String), seen.Nodup → (dedupFirst seen l).Nodup := by
  intro l
  induction l with
  | nil => intro seen h; exact h
  | cons x xs ih =>
    intro seen h
    by_cases hx : x ∈ seen
    · simpa [dedupFirst, hx] using ih seen h
    · have : (seen ++ [x]).Nodup := by simp [List.nodup_append, h, hx]
      simpa [dedupFirst, hx] using ih (seen ++ [x]) this

/-- C9: the weather decoder scans the fixed eleven-entry table, matching each
code anywhere as a substring of any token; the result is the match sequence
deduplicated keeping first occurrences (hence duplicate-free), and the single
token "+TSRA" yields both thunderstorm and rain. -/
theorem C9_weather_decoder :
    wx_map.length = 11 ∧
    (∀ tokens, parse_weather tokens = dedupFirst [] (wxMatches tokens)) ∧
    (∀ tokens, (parse_weather tokens).Nodup) ∧
    "thunderstorm" ∈ parse_weather [lc "+TSRA"] ∧
    "rain" ∈ parse_weather [lc "+TSRA"] := by
  refine ⟨by decide, ?_, ?_, by decide, by decide⟩
  · intro tokens
    exact parse_weather_foldl tokens []
  · intro tokens
    rw [parse_weather, parse_weather_foldl tokens []]
    exact dedupFirst_nodup _ [] (by simp)

set_option linter.unreachableTactic false in
set_option linter.unusedTactic false in
/-- C5: an alert is produced iff the corresponding field is present and
violates its threshold — visibility strictly below `min_visibility_sm`,
ceiling strictly below `min_ceiling_ft`, |crosswind| strictly above
`max_crosswind_kt` — and an absent field never alerts; with the default
minima (min_vis 3), visibility 2 alerts and visibility 5 does not. -/
theorem C5_minima_alerts :
    (∀ m minima rwy,
      ("visibility below minima" ∈ alerts m minima rwy ↔
        ∃ v, m.visibility_sm = some v ∧ v < minima.min_visibility_sm) ∧
      ("ceiling below minima" ∈ alerts m minima rwy ↔
        ∃ c, m.ceiling_ft = some c ∧ (c : ℚ) < minima.min_ceiling_ft) ∧
      ("crosswind exceeds minima" ∈ alerts m minima rwy ↔
        ∃ w, compute_wind_components m.wind rwy = some w ∧
          (minima.max_crosswind_kt : ℝ) < |w.crosswind|)) ∧
    "visibility below minima" ∈ alerts { visibility_sm := some 2 } {} 0 ∧
    "visibility below minima" ∉ alerts { visibility_sm := some 5 } {} 0 := by
  refine ⟨?_, ?_, ?_⟩
  · intro m minima rwy
    refine ⟨?_, ?_, ?_⟩ <;>
      cases hv : m.visibility_sm <;> cases hc : m.ceiling_ft <;>
        cases hw : compute_wind_components m.wind rwy <;>
          simp [alerts, hv, hc, hw] <;> split_ifs <;> simp_all
  · simp [alerts, compute_wind_components]
    norm_num
  · simp [alerts, compute_wind_components]
    norm_num

/-- C6: the trend analyzer yields nothing for fewer than two reports; for at
least two it compares the first and last report, classifying visibility and
ceiling deltas with the 0.05 tolerance (improving / worsening / steady) while
wind direction carries only its raw endpoints; visibility 5→2 is worsening,
2→2.02 steady, 2→6 improving. -/
theorem C6_trend_analyzer :
    (∀ mets, mets.length < 2 → trend mets = none) ∧
    (∀ m1 rest t, trend (m1 :: rest) = some t → t = mkTrend m1 (rest.getLastD m1)) ∧
    (∀ d : ℚ, (1/20 < d → trend_word d = "improving") ∧
      (d < -(1/20) → trend_word d = "worsening") ∧
      (-(1/20) ≤ d → d ≤ 1/20 → trend_word d = "steady")) ∧
    (∀ f l a b, f.visibility_sm = some a → l.visibility_sm = some b →
      (mkTrend f l).visibility = some (a, b, trend_word (b - a))) ∧
    (∀ f l (a b : ℕ), f.ceiling_ft = some a → l.ceiling_ft = some b →
      (mkTrend f l).ceiling = some (a, b, trend_word ((b : ℚ) - (a : ℚ)))) ∧
    (∀ f l a b, f.wind.direction_deg = some a → l.wind.direction_deg = some b →
      (mkTrend f l).wind_dir = some (a, b)) ∧
    trend [{ visibility_sm := some 5 }, { visibility_sm := some 2 }] =
      some { visibility := some (5, 2, "worsening") } ∧
    trend [{ visibility_sm := some 2 }, { visibility_sm := some (101/50) }] =
      some { visibility := some (2, 101/50, "steady") } ∧
    trend [{ visibility_sm := some 2 }, { visibility_sm := some 6 }] =
      some { visibility := some (2, 6, "improving") } := by
  refine ⟨?_, ?_, ?_, ?_, ?_, ?_, ?_, ?_, ?_⟩
  · intro mets h
    cases mets with
    | nil => rfl
    | cons a l =>
      cases l with
      | nil => rfl
      | cons b r => simp at h; omega
  · intro m1 rest t h
    cases rest with
    | nil => exact absurd h (by simp [trend])
    | cons b r =>
      simp only [trend, Option.some.injEq] at h
      exact h.symm
  · intro d
    refine ⟨?_, ?_, ?_⟩ <;> intro h1 <;> try intro h2
    · rw [trend_word, if_pos h1]
    · rw [trend_word, if_neg (by linarith), if_pos h1]
    · rw [trend_word, if_neg (by linarith), if_neg (by linarith)]
  · intro f l a b hf hl
    simp [mkTrend, hf, hl]
  · intro f l a b hf hl
    simp [mkTrend, hf, hl]
  · intro f l a b hf hl
    simp [mkTrend, hf, hl]
  · simp [trend, mkTrend, trend_word]
    norm_num
  · simp [trend, mkTrend, trend_word]
    norm_num
  · simp [trend, mkTrend, trend_word]
    norm_num

/-- C6 witness: the empty sequence yields no trend. -/
theorem C6_trend_analyzer_witness : trend [] = none :=
  C6_trend_analyzer.1 [] (by norm_num)

theorem normAngle_mem (d rwy : ℤ) (h : |d - rwy| ≤ 360) :
    0 ≤ normAngle d rwy ∧ normAngle d rwy ≤ Real.pi := by
  have hpi := Real.pi_pos
  have h0 : (0 : ℝ) ≤ ((|d - rwy| : ℤ) : ℝ) := by positivity
  have h360 : ((|d - rwy| : ℤ) : ℝ) ≤ 360 := by exact_mod_cast h
  rw [normAngle]
  split_ifs with hgt
  · constructor <;> nlinarith
  · push_neg at hgt
    constructor
    · positivity
    · exact hgt

theorem cos_pi_div_nine_bounds :
    939/1000 < Real.cos (Real.pi / 9) ∧ Real.cos (Real.pi / 9) < 94/100 := by
  set c := Real.cos (Real.pi / 9) with hc
  have h3 : (3 : ℝ) * (Real.pi / 9) = Real.pi / 3 := by ring
  have hcube : 4 * c ^ 3 - 3 * c = 1 / 2 := by
    have h := Real.cos_three_mul (Real.pi / 9)
    rw [h3, Real.cos_pi_div_three] at h
    linarith
  have h1 : c ≤ 1 := Real.cos_le_one _
  have hhalf : 1 / 2 ≤ c := by
    rw [hc, ← Real.cos_pi_div_three]
    exact Real.cos_le_cos_of_nonneg_of_le_pi (by positivity)
      (by linarith [Real.pi_pos]) (by linarith [Real.pi_pos])
  constructor
  · nlinarith [hcube, h1, hhalf, sq_nonneg (c - 939/1000), sq_nonneg (c - 1),
      sq_nonneg (c + 939/1000)]
  · nlinarith [hcube, h1, hhalf, sq_nonneg (c - 94/100), sq_nonneg (c - 1),
      sq_nonneg (c + 94/100)]

theorem sin_pi_div_nine_bounds :
    3415/10000 < Real.sin (Real.pi / 9) ∧ Real.sin (Real.pi / 9) < 3425/10000 := by
  set s := Real.sin (Real.pi / 9) with hs
  have h3 : (3 : ℝ) * (Real.pi / 9) = Real.pi / 3 := by ring
  have hcube : 3 * s - 4 * s ^ 3 = Real.sqrt 3 / 2 := by
    have h := Real.sin_three_mul (Real.pi / 9)
    rw [h3, Real.sin_pi_div_three] at h
    linarith
  have hsq3 : Real.sqrt 3 ^ 2 = 3 := Real.sq_sqrt (by norm_num)
  have hsq3n : 0 ≤ Real.sqrt 3 := Real.sqrt_nonneg 3
  have hr1 : 17320508/10000000 < Real.sqrt 3 := by nlinarith
  have hr2 : Real.sqrt 3 < 17320509/10000000 := by nlinarith
  have hs0 : 0 ≤ s := by
    rw [hs]
    exact Real.sin_nonneg_of_nonneg_of_le_pi (by positivity) (by linarith [Real.pi_pos])
  have hpyth : s ^ 2 + Real.cos (Real.pi / 9) ^ 2 = 1 := Real.sin_sq_add_cos_sq _
  have hcb := cos_pi_div_nine_bounds
  have hshalf : s ≤ 1 / 2 := by nlinarith [hcb.1, hcb.2, hpyth, hs0]
  constructor
  · nlinarith [hcube, hs0, hshalf, hr1, sq_nonneg (s - 3415/10000), sq_nonneg (s + 3415/10000)]
  · nlinarith [hcube, hs0, hshalf, hr2, sq_nonneg (s - 3425/10000), sq_nonneg (s + 3425/10000)]

theorem normAngle_example : normAngle 200 220 = Real.pi / 9 := by
  have habs : ((|(200 : ℤ) - 220| : ℤ) : ℝ) = 20 := by norm_num
  rw [normAngle]
  rw [habs]
  have h20 : (20 : ℝ) * Real.pi / 180 = Real.pi / 9 := by ring
  rw [h20]
  rw [if_neg (by push_neg; linarith [Real.pi_pos])]

/-- C4: wind components are unavailable iff the direction is absent or the
runway heading is 0; otherwise headwind = speed·cos Δ and crosswind =
speed·sin Δ for the normalized angle Δ, which lies in [0, π] whenever the raw
difference is within a full turn; for heading 220 and wind 200°@20 kt the
headwind is within 0.01 of 18.79 kt and the crosswind within 0.01 of 6.84 kt. -/
theorem C4_wind_components :
    (∀ w rwy, compute_wind_components w rwy = none ↔
      (w.direction_deg = none ∨ rwy = 0)) ∧
    (∀ (d : ℤ) (s : ℕ) (g : Option ℕ) (rwy : ℤ), rwy ≠ 0 →
      compute_wind_components ⟨some d, s, g⟩ rwy =
        some ⟨Real.cos (normAngle d rwy) * s, Real.sin (normAngle d rwy) * s⟩) ∧
    (∀ d rwy : ℤ, |d - rwy| ≤ 360 → 0 ≤ normAngle d rwy ∧ normAngle d rwy ≤ Real.pi) ∧
    (∃ c, compute_wind_components ⟨some 200, 20, none⟩ 220 = some c ∧
      |c.headwind - 18.79| ≤ 0.01 ∧ |c.crosswind - 6.84| ≤ 0.01) := by
  refine ⟨?_, ?_, fun d rwy h => normAngle_mem d rwy h, ?_⟩
  · intro w rwy
    rcases w with ⟨dir, s, g⟩
    cases dir with
    | none => simp [compute_wind_components]
    | some d =>
      simp only [compute_wind_components]
      split_ifs with h <;> simp [h]
  · intro d s g rwy h
    simp [compute_wind_components, h]
  · refine ⟨⟨Real.cos (normAngle 200 220) * ((20 : ℕ) : ℝ),
      Real.sin (normAngle 200 220) * ((20 : ℕ) : ℝ)⟩, ?_, ?_, ?_⟩
    · simp [compute_wind_components]
    · rw [normAngle_example]
      have hcb := cos_pi_div_nine_bounds
      rw [abs_le]
      push_cast
      constructor <;> nlinarith [hcb.1, hcb.2]
    · rw [normAngle_example]
      have hsb := sin_pi_div_nine_bounds
      rw [abs_le]
      push_cast
      constructor <;> nlinarith [hsb.1, hsb.2]

/-- C4 witness: the component formula at direction 0, speed 0, heading 90. -/
theorem C4_wind_components_witness :
    compute_wind_components ⟨some 0, 0, none⟩ 90 =
      some ⟨Real.cos (normAngle 0 90) * ((0 : ℕ) : ℝ),
        Real.sin (normAngle 0 90) * ((0 : ℕ) : ℝ)⟩ :=
  C4_wind_components.2.1 0 0 none 90 (by decide)

/-- C10: for any in-range direction [0,360) and runway heading [1,360], the
normalized angle lies in [0, π], so the computed crosswind is non-negative —
its value already equals its magnitude. -/
theorem C10_crosswind_nonneg :
    ∀ (d rwy : ℤ) (s : ℕ) (g : Option ℕ), 0 ≤ d → d < 360 → 1 ≤ rwy → rwy ≤ 360 →
    ∀ c, compute_wind_components ⟨some d, s, g⟩ rwy = some c → 0 ≤ c.crosswind := by
  intro d rwy s g hd0 hd1 hr1 hr2 c hc
  have hne : rwy ≠ 0 := by omega
  simp only [compute_wind_components, if_neg hne] at hc
  have habs : |d - rwy| ≤ 360 := by
    rw [abs_le]
    omega
  obtain ⟨hge, hle⟩ := normAngle_mem d rwy habs
  have hsin : 0 ≤ Real.sin (normAngle d rwy) :=
    Real.sin_nonneg_of_nonneg_of_le_pi hge hle
  injection hc with h
  rw [← h]
  show 0 ≤ Real.sin (normAngle d rwy) * (s : ℝ)
  positivity

/-- C10 witness: the crosswind for wind 200°@20 kt on runway heading 220 is
non-negative. -/
theorem C10_crosswind_nonneg_witness :
    0 ≤ (WindComponents.mk (Real.cos (normAngle 200 220) * ((20 : ℕ) : ℝ))
      (Real.sin (normAngle 200 220) * ((20 : ℕ) : ℝ))).crosswind :=
  C10_crosswind_nonneg 200 220 20 none (by decide) (by decide) (by decide) (by decide)
    _ rfl
